import Mathlib

/-!
Verification of the order-exchange execution core

Shallow embedding of the order-execution subsystem:
* `src/src/entities/enums.ts`, `src/src/types/index.ts` — data model;
* `MockDexRouter` (quote fetching, best-DEX selection, swap execution);
* `WebSocketManager` (live registry, Redis-backed buffered update log);
* `OrderProcessor.processOrder` (the order pipeline state machine);
* the BullMQ retry loop of `OrderQueue` (attempt sequencing).

Machine numbers (JS `number`) are modelled as `ℚ`; the claims under test
are sign/ordering comparisons and interval bounds that are robust to this
reading.  Serialized updates (`JSON.stringify`) are modelled by the update
value itself — the spec fixes that the buffered form is the identical
serialized record, so serialization is a bijection we can elide.
-/

namespace OrderExchange

/-! ## Enums and wire records (`entities/enums.ts`, `types/index.ts`) -/

inductive OrderStatus where
  | PENDING | ROUTING | BUILDING | SUBMITTED | CONFIRMED | FAILED
deriving DecidableEq, Repr

inductive DEXName where
  | RAYDIUM | METEORA
deriving DecidableEq, Repr

/-- Model of `DexQuoteResult` from `types/index.ts`. -/
structure DexQuoteResult where
  dexName : DEXName
  price : ℚ
  fee : ℚ
  estimatedOutput : ℚ
deriving DecidableEq, Repr

/-- Model of `SwapResult` from `types/index.ts`. -/
structure SwapResult where
  txHash : String
  executedPrice : ℚ
  amountOut : ℚ
deriving DecidableEq, Repr

/-- Model of `OrderStatusUpdate` from `types/index.ts` — the wire record published
for each status transition.  Optional fields default to absent. -/
structure OrderStatusUpdate where
  orderId : String
  status : OrderStatus
  message : String
  quotes : Option (List DexQuoteResult) := none
  selectedDex : Option DEXName := none
  txHash : Option String := none
  executionPrice : Option ℚ := none
  error : Option String := none
  retryCount : Option ℕ := none
deriving DecidableEq, Repr

/-! ## `MockDexRouter` (src/unnamed/part_005) -/

/-- Model of `MockDexRouter.getBasePrice`: table lookup on `tokenIn-tokenOut`,
default `100`. -/
def getBasePrice (tokenIn tokenOut : String) : ℚ :=
  let pairKey := tokenIn ++ "-" ++ tokenOut
  let basePrices : List (String × ℚ) :=
    [("SOL-USDC", 95.5), ("SOL-USDT", 95.3), ("USDC-SOL", 0.01047),
     ("USDT-SOL", 0.01049), ("SOL-RAY", 190.5), ("RAY-SOL", 0.00525),
     ("USDC-USDT", 0.9998), ("USDT-USDC", 1.0002)]
  (basePrices.lookup pairKey).getD 100

/-- Model of `MockDexRouter.getRaydiumQuote` with the `Math.random()` draw made an
explicit parameter `rand ∈ [0,1)`: price variance 98–102%, fee 0.3%,
`estimatedOutput = amount * price * (1 - fee)`. -/
def getRaydiumQuote (tokenIn tokenOut : String) (amount rand : ℚ) : DexQuoteResult :=
  let basePrice := getBasePrice tokenIn tokenOut
  let price := basePrice * (0.98 + rand * 0.04)
  let fee : ℚ := 0.003
  { dexName := .RAYDIUM, price := price, fee := fee
    estimatedOutput := amount * price * (1 - fee) }

/-- Model of `MockDexRouter.getMeteorQuote`: price variance 97–102%, fee 0.2%. -/
def getMeteorQuote (tokenIn tokenOut : String) (amount rand : ℚ) : DexQuoteResult :=
  let basePrice := getBasePrice tokenIn tokenOut
  let price := basePrice * (0.97 + rand * 0.05)
  let fee : ℚ := 0.002
  { dexName := .METEORA, price := price, fee := fee
    estimatedOutput := amount * price * (1 - fee) }

/-- Model of `MockDexRouter.getAllQuotes`: quotes from both DEXs, Raydium first
(provider iteration order of the `Promise.all` pair). -/
def getAllQuotes (tokenIn tokenOut : String) (amount randR randM : ℚ) :
    List DexQuoteResult :=
  [getRaydiumQuote tokenIn tokenOut amount randR,
   getMeteorQuote tokenIn tokenOut amount randM]

/-- The reducer body of `MockDexRouter.selectBestDex`:
`current.estimatedOutput > best.estimatedOutput ? current : best`. -/
def selStep (best current : DexQuoteResult) : DexQuoteResult :=
  if current.estimatedOutput > best.estimatedOutput then current else best

/-- Model of `MockDexRouter.selectBestDex`: JS `Array.reduce` with no initial value —
throws on an empty array (modelled as `none`), otherwise folds from the
head, so ties keep the earlier quote (`>` is strict). -/
def selectBestDex (quotes : List DexQuoteResult) : Option DexQuoteResult :=
  match quotes with
  | [] => none
  | q :: qs => some (qs.foldl selStep q)

/-- Model of `MockDexRouter.executeSwap` with the random draw `rand ∈ [0,1)` and the
generated tx hash made explicit parameters:
`priceImpact = rand * slippage * 0.8`,
`executedPrice = quote.price * (1 - priceImpact)`,
`amountOut = amount * executedPrice * (1 - quote.fee)`. -/
def executeSwap (_dex : DEXName) (_tokenIn _tokenOut : String)
    (amount slippage : ℚ) (quote : DexQuoteResult) (rand : ℚ)
    (txHash : String) : SwapResult :=
  let priceImpact := rand * slippage * 0.8
  let executedPrice := quote.price * (1 - priceImpact)
  let amountOut := amount * executedPrice * (1 - quote.fee)
  { txHash := txHash, executedPrice := executedPrice, amountOut := amountOut }

/-! ### Selection correctness (argmax characterization of the reduce) -/

/-- The fold underlying `selectBestDex` returns an element of
`acc :: qs` that (a) is maximal in `estimatedOutput` and (b) is strictly
greater than every element preceding it in the list — i.e. the first-seen
maximum wins. -/
theorem foldl_selStep_firstMax :
    ∀ (qs : List DexQuoteResult) (acc : DexQuoteResult),
      ∃ pre post, acc :: qs = pre ++ (qs.foldl selStep acc) :: post ∧
        (∀ y ∈ pre, y.estimatedOutput < (qs.foldl selStep acc).estimatedOutput) ∧
        ∀ y ∈ acc :: qs, y.estimatedOutput ≤ (qs.foldl selStep acc).estimatedOutput := by
  intro qs
  induction qs with
  | nil =>
    intro acc
    exact ⟨[], [], rfl, by simp, by simp⟩
  | cons x xs ih =>
    intro acc
    obtain ⟨pre, post, hsplit, hpre, hall⟩ := ih (selStep acc x)
    by_cases hc : x.estimatedOutput > acc.estimatedOutput
    · have hs : selStep acc x = x := by simp [selStep, hc]
      rw [hs] at hsplit hpre hall
      have hxle : x.estimatedOutput ≤ (xs.foldl selStep x).estimatedOutput :=
        hall x (List.mem_cons_self x xs)
      refine ⟨acc :: pre, post, ?_, ?_, ?_⟩
      · rw [List.foldl_cons, hs, List.cons_append, ← hsplit]
      · intro y hy
        simp only [List.foldl_cons, hs]
        rcases List.mem_cons.mp hy with hy | hy
        · subst hy; exact lt_of_lt_of_le hc hxle
        · exact hpre y hy
      · intro y hy
        simp only [List.foldl_cons, hs]
        rcases List.mem_cons.mp hy with hy | hy
        · subst hy; exact le_of_lt (lt_of_lt_of_le hc hxle)
        · exact hall y hy
    · have hs : selStep acc x = acc := by simp [selStep, hc]
      rw [hs] at hsplit hpre hall
      have hxle : x.estimatedOutput ≤ acc.estimatedOutput := le_of_not_lt hc
      have hacc : acc.estimatedOutput ≤ (xs.foldl selStep acc).estimatedOutput :=
        hall acc (List.mem_cons_self acc xs)
      have hallx : ∀ y ∈ acc :: x :: xs,
          y.estimatedOutput ≤ ((x :: xs).foldl selStep acc).estimatedOutput := by
        intro y hy
        simp only [List.foldl_cons, hs]
        rcases List.mem_cons.mp hy with hy | hy
        · subst hy; exact hacc
        · rcases List.mem_cons.mp hy with hy | hy
          · subst hy; exact le_trans hxle hacc
          · exact hall y (List.mem_cons_of_mem _ hy)
      cases pre with
      | nil =>
        -- the running maximum is `acc` itself
        have hacc' : xs.foldl selStep acc = acc := by
          have := hsplit
          simp only [List.nil_append, List.cons.injEq] at this
          exact this.1.symm
        refine ⟨[], x :: xs, ?_, by simp, hallx⟩
        rw [List.foldl_cons, hs, hacc', List.nil_append]
      | cons p pre' =>
        have hsplit' : acc = p ∧ xs = pre' ++ (xs.foldl selStep acc) :: post := by
          have h := hsplit
          simp only [List.cons_append, List.cons.injEq] at h
          exact h
        refine ⟨acc :: x :: pre', post, ?_, ?_, hallx⟩
        · rw [List.foldl_cons, hs, List.cons_append, List.cons_append,
            ← hsplit'.2]
        · intro y hy
          simp only [List.foldl_cons, hs]
          have haccin : acc ∈ p :: pre' := by
            rw [hsplit'.1]; exact List.mem_cons_self p pre'
          rcases List.mem_cons.mp hy with hy | hy
          · rw [hy]; exact hpre acc haccin
          · rcases List.mem_cons.mp hy with hy | hy
            · rw [hy]; exact lt_of_le_of_lt hxle (hpre acc haccin)
            · exact hpre y (List.mem_cons_of_mem _ hy)

/-- The quote pair from the spec's selection-correctness test vector,
amount `1.5`: Raydium at price `95.2`, fee `0.003`; Meteora at price
`95.8`, fee `0.002`; `estimatedOutput = amount * price * (1 - fee)`. -/
def raydiumSpecQuote : DexQuoteResult :=
  { dexName := .RAYDIUM, price := 95.2, fee := 0.003
    estimatedOutput := 1.5 * 95.2 * (1 - 0.003) }

def meteoraSpecQuote : DexQuoteResult :=
  { dexName := .METEORA, price := 95.8, fee := 0.002
    estimatedOutput := 1.5 * 95.8 * (1 - 0.002) }

/-- C3.  `selectBestDex` on any non-empty quote list returns the quote
with maximal `estimatedOutput`, and among equal maxima the one earliest
in provider iteration order (every strictly earlier quote has strictly
smaller output).  On the spec's concrete vector (Raydium 95.2/0.003 vs
Meteora 95.8/0.002, amount 1.5) the selection is Meteora. -/
theorem selectBestDex_first_max :
    (∀ (q : DexQuoteResult) (qs : List DexQuoteResult) (r : DexQuoteResult),
      selectBestDex (q :: qs) = some r →
      ∃ pre post, q :: qs = pre ++ r :: post ∧
        (∀ y ∈ pre, y.estimatedOutput < r.estimatedOutput) ∧
        ∀ y ∈ q :: qs, y.estimatedOutput ≤ r.estimatedOutput) ∧
    selectBestDex [raydiumSpecQuote, meteoraSpecQuote] = some meteoraSpecQuote := by
  constructor
  · intro q qs r hr
    have : qs.foldl selStep q = r := by
      simpa [selectBestDex] using hr
    subst this
    exact foldl_selStep_firstMax qs q
  · simp only [selectBestDex, List.foldl_cons, List.foldl_nil, selStep,
      raydiumSpecQuote, meteoraSpecQuote, Option.some.injEq]
    norm_num

/-- Witness for C3: the general argmax property applied at the singleton
list `[raydiumSpecQuote]`. -/
theorem selectBestDex_first_max_witness :
    ∃ pre post, [raydiumSpecQuote] = pre ++ raydiumSpecQuote :: post ∧
      (∀ y ∈ pre, y.estimatedOutput < raydiumSpecQuote.estimatedOutput) ∧
      ∀ y ∈ [raydiumSpecQuote], y.estimatedOutput ≤ raydiumSpecQuote.estimatedOutput :=
  selectBestDex_first_max.1 raydiumSpecQuote [] raydiumSpecQuote rfl

/-! ### Slippage bound -/

/-- C4.  For slippage `s ∈ [0,1]`, a non-negative quoted price and any
random draw `rand ∈ [0,1)`, the realized price of `executeSwap` satisfies
`quote.price * (1 - s) ≤ executedPrice ≤ quote.price`. -/
theorem executeSwap_slippage_bound (dex : DEXName) (tokenIn tokenOut : String)
    (amount slippage : ℚ) (quote : DexQuoteResult) (rand : ℚ) (txHash : String)
    (hp : 0 ≤ quote.price) (hs0 : 0 ≤ slippage) (hs1 : slippage ≤ 1)
    (hr0 : 0 ≤ rand) (hr1 : rand < 1) :
    quote.price * (1 - slippage) ≤
        (executeSwap dex tokenIn tokenOut amount slippage quote rand txHash).executedPrice ∧
      (executeSwap dex tokenIn tokenOut amount slippage quote rand txHash).executedPrice ≤
        quote.price := by
  simp only [executeSwap]
  have h1 : rand * slippage * 0.8 ≤ slippage := by
    nlinarith [mul_nonneg hs0 (show (0:ℚ) ≤ 1 - rand * 0.8 by linarith)]
  have h3 : 0 ≤ rand * slippage * 0.8 := by positivity
  constructor
  · have h2 : (1 : ℚ) - slippage ≤ 1 - rand * slippage * 0.8 := by linarith
    exact mul_le_mul_of_nonneg_left h2 hp
  · have h4 : quote.price * (1 - rand * slippage * 0.8) ≤ quote.price * 1 :=
      mul_le_mul_of_nonneg_left (by linarith) hp
    simpa using h4

/-- Witness for C4 at price 100, slippage 1/2, draw 1/2. -/
theorem executeSwap_slippage_bound_witness :
    (100 : ℚ) * (1 - 1/2) ≤
        (executeSwap .RAYDIUM "SOL" "USDC" 2 (1/2)
          ⟨.RAYDIUM, 100, 0.003, 199.4⟩ (1/2) "tx").executedPrice ∧
      (executeSwap .RAYDIUM "SOL" "USDC" 2 (1/2)
          ⟨.RAYDIUM, 100, 0.003, 199.4⟩ (1/2) "tx").executedPrice ≤ 100 :=
  executeSwap_slippage_bound .RAYDIUM "SOL" "USDC" 2 (1/2)
    ⟨.RAYDIUM, 100, 0.003, 199.4⟩ (1/2) "tx"
    (by norm_num) (by norm_num) (by norm_num) (by norm_num) (by norm_num)

/-! ## `WebSocketManager` (src/src/services/WebSocketManager.ts)

The manager's state for a single order id: the live registration
(`connections.get(orderId)` — `none` when no subscriber is attached), a
table of client sockets, and the Redis list `order:<orderId>:updates`
together with its absolute expiration instant (Redis `EXPIRE key ttl`
at time `now` sets it to `now + ttl`).  `JSON.stringify`/`JSON.parse`
round-trips are elided (the buffered wire form is the identical record).
-/

/-- Model of `UPDATE_BUFFER_TTL = 300` seconds. -/
def UPDATE_BUFFER_TTL : ℕ := 300

/-- Model of `MAX_BUFFERED_UPDATES = 50`. -/
def MAX_BUFFERED_UPDATES : ℕ := 50

/-- One client WebSocket: `readyState` (1 = OPEN, 3 = CLOSED) and the
messages delivered to it through `socket.send`, oldest first. -/
structure ChanState where
  readyState : ℕ
  sent : List OrderStatusUpdate
deriving DecidableEq, Repr

/-- Per-order view of `WebSocketManager` plus the Redis buffer key. -/
structure WSState where
  conn : Option ℕ
  chans : List (ℕ × ChanState)
  buf : List OrderStatusUpdate
  bufExpireAt : Option ℕ
deriving DecidableEq, Repr

def lookupChanL : List (ℕ × ChanState) → ℕ → Option ChanState
  | [], _ => none
  | p :: t, cid => if p.1 = cid then some p.2 else lookupChanL t cid

def setChanL : List (ℕ × ChanState) → ℕ → ChanState → List (ℕ × ChanState)
  | [], _, _ => []
  | p :: t, cid, c =>
    (if p.1 = cid then (p.1, c) else p) :: setChanL t cid c

def lookupChan (s : WSState) (cid : ℕ) : Option ChanState :=
  lookupChanL s.chans cid

/-- Model of `socket.send(...)` on channel `cid`: the update is appended to the
messages the client has received. -/
def sendToChan (s : WSState) (cid : ℕ) (u : OrderStatusUpdate) : WSState :=
  match lookupChan s cid with
  | some c => { s with chans := setChanL s.chans cid { c with sent := c.sent ++ [u] } }
  | none => s

/-- Model of `socket.readyState === 1` for the channel `cid`. -/
def chanOpen (s : WSState) (cid : ℕ) : Bool :=
  match lookupChan s cid with
  | some c => c.readyState == 1
  | none => false

/-- What `LRANGE key 0 -1` observes at time `now`: the whole list, unless
the TTL has elapsed, in which case the key is gone and the read is empty. -/
def liveBuf (s : WSState) (now : ℕ) : List OrderStatusUpdate :=
  match s.bufExpireAt with
  | none => s.buf
  | some e => if now < e then s.buf else []

/-- Model of `LTRIM key -MAX_BUFFERED_UPDATES -1`: keep only the newest
`MAX_BUFFERED_UPDATES` entries (a shorter list is kept whole). -/
def ltrimLast (l : List OrderStatusUpdate) : List OrderStatusUpdate :=
  l.drop (l.length - MAX_BUFFERED_UPDATES)

/-- The Redis body of `WebSocketManager.bufferUpdate` as a fallible step:
`RPUSH key update; EXPIRE key UPDATE_BUFFER_TTL; LTRIM key -50 -1`.
`redisFails` models the store erroring (connection loss etc.). -/
def redisBufferOps (now : ℕ) (u : OrderStatusUpdate) (redisFails : Bool)
    (s : WSState) : Except String WSState :=
  if redisFails then .error "redis error"
  else .ok { s with
    buf := ltrimLast (liveBuf s now ++ [u])
    bufExpireAt := some (now + UPDATE_BUFFER_TTL) }

/-- Model of `WebSocketManager.bufferUpdate`: the Redis ops wrapped in `try/catch` —
a store failure is logged and absorbed, leaving the state unchanged. -/
def bufferUpdate (now : ℕ) (u : OrderStatusUpdate) (redisFails : Bool)
    (s : WSState) : WSState :=
  match redisBufferOps now u redisFails s with
  | .ok s' => s'
  | .error _ => s

/-- Model of `socket.send` as a fallible step (`sendFails` models a throwing send). -/
def socketSendE (sendFails : Bool) (s : WSState) (cid : ℕ)
    (u : OrderStatusUpdate) : Except String WSState :=
  if sendFails then .error "send failed" else .ok (sendToChan s cid u)

/-- Model of `WebSocketManager.sendStatusUpdate`: deliver live when a registered
connection is OPEN; a throwing send is caught and falls through to
`bufferUpdate`; with no open connection the update is buffered.  The
`Except` result models the promise of the `async` method: an `.error`
would be a rejection observable by the caller. -/
def sendStatusUpdate (now : ℕ) (u : OrderStatusUpdate)
    (sendFails redisFails : Bool) (s : WSState) : Except String WSState :=
  match s.conn with
  | some cid =>
    if chanOpen s cid then
      match socketSendE sendFails s cid u with
      | .ok s' => .ok s'
      | .error _ => .ok (bufferUpdate now u redisFails s)
    else .ok (bufferUpdate now u redisFails s)
  | none => .ok (bufferUpdate now u redisFails s)

/-- The `for (const updateStr of bufferedUpdates)` loop of
`sendBufferedUpdates`: each entry is sent only when `readyState === 1`
at that iteration. -/
def flushLoop (cid : ℕ) (entries : List OrderStatusUpdate) (s : WSState) :
    WSState :=
  entries.foldl (fun acc u => if chanOpen acc cid then sendToChan acc cid u else acc) s

/-- Model of `await redisClient.del(key)`. -/
def delBuf (s : WSState) : WSState :=
  { s with buf := [], bufExpireAt := none }

/-- Model of `WebSocketManager.sendBufferedUpdates` run without interleaving:
`LRANGE` the whole log; if non-empty, forward each entry (checking
`readyState` per entry) and then `DEL` the key unconditionally. -/
def sendBufferedUpdates (now : ℕ) (cid : ℕ) (s : WSState) : WSState :=
  let bufferedUpdates := liveBuf s now
  if bufferedUpdates.isEmpty then s
  else delBuf (flushLoop cid bufferedUpdates s)

/-- Model of `WebSocketManager.registerConnection` run without interleaving:
`connections.set(orderId, connection)` then flush the buffered log.
(The `close`/`error` handlers it installs only react to later socket
events and are not part of the attach step itself.) -/
def registerConnection (now : ℕ) (cid : ℕ) (s : WSState) : WSState :=
  sendBufferedUpdates now cid { s with conn := some cid }

/-- Model of `WebSocketManager.closeConnection`: close the registered socket and
drop the registration; no-op when nothing is registered. -/
def closeConnection (s : WSState) : WSState :=
  match s.conn with
  | some cid =>
    match lookupChan s cid with
    | some c =>
      { s with chans := setChanL s.chans cid { c with readyState := 3 }
               conn := none }
    | none => { s with conn := none }
  | none => s

/-- Messages a given channel has received so far (empty for an unknown id). -/
def chanSent (s : WSState) (cid : ℕ) : List OrderStatusUpdate :=
  ((lookupChan s cid).map (·.sent)).getD []

/-! ### Channel-table lemmas -/

theorem lookupChanL_setChanL_self (cid : ℕ) (c : ChanState) :
    ∀ l : List (ℕ × ChanState), (lookupChanL l cid).isSome →
      lookupChanL (setChanL l cid c) cid = some c := by
  intro l
  induction l with
  | nil => intro h; simp [lookupChanL] at h
  | cons p t ih =>
    intro h
    by_cases hp : p.1 = cid
    · simp [lookupChanL, setChanL, hp]
    · simp [lookupChanL, setChanL, hp] at h ⊢
      exact ih h

theorem lookupChanL_setChanL_ne (cid j : ℕ) (c : ChanState) (hj : j ≠ cid) :
    ∀ l : List (ℕ × ChanState),
      lookupChanL (setChanL l cid c) j = lookupChanL l j := by
  intro l
  induction l with
  | nil => rfl
  | cons p t ih =>
    by_cases hp : p.1 = cid
    · have hpj : ¬ p.1 = j := by rw [hp]; exact fun hc => hj hc.symm
      simp only [lookupChanL, setChanL, if_pos hp, if_neg hpj, ih]
    · by_cases hpj : p.1 = j
      · simp [lookupChanL, setChanL, hpj, hj]
      · simp only [lookupChanL, setChanL, if_neg hp, if_neg hpj, ih]

theorem sendToChan_fields (s : WSState) (cid : ℕ) (u : OrderStatusUpdate) :
    (sendToChan s cid u).conn = s.conn ∧
    (sendToChan s cid u).buf = s.buf ∧
    (sendToChan s cid u).bufExpireAt = s.bufExpireAt := by
  unfold sendToChan
  cases lookupChan s cid <;> simp

theorem sendToChan_sent_of_open (s : WSState) (cid : ℕ) (u : OrderStatusUpdate)
    (h : chanOpen s cid = true) :
    chanSent (sendToChan s cid u) cid = chanSent s cid ++ [u] ∧
      chanOpen (sendToChan s cid u) cid = true := by
  unfold chanOpen at h ⊢
  unfold chanSent sendToChan
  cases hc : lookupChan s cid with
  | none => rw [hc] at h; simp at h
  | some c =>
    rw [hc] at h
    have h1 : c.readyState = 1 := by simpa using h
    have hsome : (lookupChanL s.chans cid).isSome := by
      unfold lookupChan at hc; rw [hc]; rfl
    have hset := lookupChanL_setChanL_self cid
      { c with sent := c.sent ++ [u] } s.chans hsome
    simp only [lookupChan] at hc ⊢
    simp only [h1] at hset
    simp [hset, hc, h1]

theorem sendToChan_other (s : WSState) (cid j : ℕ) (u : OrderStatusUpdate)
    (hj : j ≠ cid) : lookupChan (sendToChan s cid u) j = lookupChan s j := by
  unfold sendToChan
  cases hc : lookupChan s cid with
  | none => rfl
  | some c => simpa [lookupChan] using lookupChanL_setChanL_ne cid j _ hj s.chans

theorem flushLoop_fields (cid : ℕ) :
    ∀ (entries : List OrderStatusUpdate) (s : WSState),
      (flushLoop cid entries s).conn = s.conn ∧
      (flushLoop cid entries s).buf = s.buf ∧
      (flushLoop cid entries s).bufExpireAt = s.bufExpireAt := by
  intro entries
  induction entries with
  | nil => intro s; exact ⟨rfl, rfl, rfl⟩
  | cons u es ih =>
    intro s
    show (flushLoop cid es _).conn = _ ∧ _
    by_cases h : chanOpen s cid = true
    · have hf := sendToChan_fields s cid u
      have := ih (sendToChan s cid u)
      simp only [flushLoop, List.foldl_cons, h, if_true] at this ⊢
      exact ⟨this.1.trans hf.1, this.2.1.trans hf.2.1, this.2.2.trans hf.2.2⟩
    · have h' : chanOpen s cid = false := by simpa using h
      simpa [flushLoop, List.foldl_cons, h'] using ih s

theorem flushLoop_sent_of_open (cid : ℕ) :
    ∀ (entries : List OrderStatusUpdate) (s : WSState),
      chanOpen s cid = true →
      chanSent (flushLoop cid entries s) cid = chanSent s cid ++ entries ∧
        chanOpen (flushLoop cid entries s) cid = true := by
  intro entries
  induction entries with
  | nil => intro s h; exact ⟨by simp [flushLoop], h⟩
  | cons u es ih =>
    intro s h
    have hsend := sendToChan_sent_of_open s cid u h
    have hrec := ih (sendToChan s cid u) hsend.2
    constructor
    · show chanSent (flushLoop cid es _) cid = _
      simp only [flushLoop, List.foldl_cons, h, if_true] at hrec ⊢
      rw [hrec.1, hsend.1, List.append_assoc]
      rfl
    · show chanOpen (flushLoop cid es _) cid = true
      simp only [flushLoop, List.foldl_cons, h, if_true] at hrec ⊢
      exact hrec.2

theorem flushLoop_of_closed (cid : ℕ) :
    ∀ (entries : List OrderStatusUpdate) (s : WSState),
      chanOpen s cid = false → flushLoop cid entries s = s := by
  intro entries
  induction entries with
  | nil => intro s _; rfl
  | cons u es ih =>
    intro s h
    show flushLoop cid es _ = s
    simpa [flushLoop, List.foldl_cons, h] using ih s h

theorem flushLoop_other (cid j : ℕ) (hj : j ≠ cid) :
    ∀ (entries : List OrderStatusUpdate) (s : WSState),
      lookupChan (flushLoop cid entries s) j = lookupChan s j := by
  intro entries
  induction entries with
  | nil => intro s; rfl
  | cons u es ih =>
    intro s
    show lookupChan (flushLoop cid es _) j = _
    by_cases h : chanOpen s cid = true
    · simp only [flushLoop, List.foldl_cons, h, if_true] at ih ⊢
      exact (ih (sendToChan s cid u)).trans (sendToChan_other s cid j u hj)
    · have h' : chanOpen s cid = false := by simpa using h
      simpa [flushLoop, List.foldl_cons, h'] using ih s

/-! ### C7 — flush-then-clear with in-order forwarding -/

/-- C7.  When a subscriber with an OPEN channel attaches while the
buffered log is non-empty, the attach forwards exactly the buffered
entries to the channel in their original append order, and afterwards the
log is cleared: any subsequent read (before any new publish) is empty. -/
theorem registerConnection_flush_then_clear (s : WSState) (cid : ℕ) (now : ℕ)
    (hopen : chanOpen s cid = true) (hne : liveBuf s now ≠ []) :
    (registerConnection now cid s).buf = [] ∧
    (∀ t, liveBuf (registerConnection now cid s) t = []) ∧
    chanSent (registerConnection now cid s) cid =
      chanSent s cid ++ liveBuf s now := by
  have hne' : (liveBuf { s with conn := some cid } now).isEmpty = false := by
    simpa [List.isEmpty_iff] using hne
  have hopen' : chanOpen { s with conn := some cid } cid = true := hopen
  have hflush := flushLoop_sent_of_open cid (liveBuf { s with conn := some cid } now)
    { s with conn := some cid } hopen'
  refine ⟨?_, ?_, ?_⟩
  · simp only [registerConnection, sendBufferedUpdates, hne', Bool.false_eq_true,
      if_false]
    rfl
  · intro t
    simp only [registerConnection, sendBufferedUpdates, hne', Bool.false_eq_true,
      if_false]
    rfl
  · simp only [registerConnection, sendBufferedUpdates, hne', Bool.false_eq_true,
      if_false]
    have : chanSent (delBuf (flushLoop cid (liveBuf { s with conn := some cid } now)
        { s with conn := some cid })) cid =
        chanSent (flushLoop cid (liveBuf { s with conn := some cid } now)
        { s with conn := some cid }) cid := rfl
    rw [this, hflush.1]
    rfl

/-- Witness for C7: one buffered update, open channel 0. -/
theorem registerConnection_flush_then_clear_witness :
    (registerConnection 7 0 ⟨none, [(0, ⟨1, []⟩)],
        [⟨"o", .PENDING, "m", none, none, none, none, none, none⟩], some 100⟩).buf = [] ∧
    (∀ t, liveBuf (registerConnection 7 0 ⟨none, [(0, ⟨1, []⟩)],
        [⟨"o", .PENDING, "m", none, none, none, none, none, none⟩], some 100⟩) t = []) ∧
    chanSent (registerConnection 7 0 ⟨none, [(0, ⟨1, []⟩)],
        [⟨"o", .PENDING, "m", none, none, none, none, none, none⟩], some 100⟩) 0 =
      chanSent (⟨none, [(0, ⟨1, []⟩)],
        [⟨"o", .PENDING, "m", none, none, none, none, none, none⟩], some 100⟩ : WSState) 0 ++
      liveBuf ⟨none, [(0, ⟨1, []⟩)],
        [⟨"o", .PENDING, "m", none, none, none, none, none, none⟩], some 100⟩ 7 :=
  registerConnection_flush_then_clear _ 0 7 (by decide) (by decide)

/-! ### C8 — replacement without closing the prior channel -/

/-- Counterexample to C8 as stated: with channel 0 registered and open,
attaching channel 1 for the same order replaces the registration, but the
prior channel 0 is NOT closed — its `readyState` stays 1 (OPEN) rather
than becoming 3 (CLOSED); `registerConnection` never calls
`socket.close()` on the replaced connection. -/
theorem registerConnection_does_not_close_prior :
    (registerConnection 0 1 ⟨some 0, [(0, ⟨1, []⟩), (1, ⟨1, []⟩)], [], none⟩).conn
        = some 1 ∧
    (lookupChan (registerConnection 0 1
        ⟨some 0, [(0, ⟨1, []⟩), (1, ⟨1, []⟩)], [], none⟩) 0).map (·.readyState)
        = some 1 ∧
    ¬ ((lookupChan (registerConnection 0 1
        ⟨some 0, [(0, ⟨1, []⟩), (1, ⟨1, []⟩)], [], none⟩) 0).map (·.readyState)
        = some 3) := by
  decide

/-- C8 amended.  Attaching a new channel for an order id that already has
a live registration replaces the registration with the new channel, but
leaves every other channel — in particular the prior one — untouched
(neither closed nor otherwise modified). -/
theorem registerConnection_replaces_prior (now cid : ℕ) (s : WSState) :
    (registerConnection now cid s).conn = some cid ∧
    ∀ j, j ≠ cid → lookupChan (registerConnection now cid s) j = lookupChan s j := by
  by_cases he : (liveBuf s now).isEmpty = true
  · have he2 : liveBuf s now = [] := by simpa [List.isEmpty_iff] using he
    have he3 : liveBuf { s with conn := some cid } now = [] := he2
    constructor
    · simp [registerConnection, sendBufferedUpdates, he3]
    · intro j _
      simp [registerConnection, sendBufferedUpdates, he3, lookupChan]
  · have he' : (liveBuf { s with conn := some cid } now).isEmpty = false := by
      simpa using he
    constructor
    · simp only [registerConnection, sendBufferedUpdates, he',
        Bool.false_eq_true, if_false]
      show (flushLoop cid _ _).conn = some cid
      exact (flushLoop_fields cid _ _).1
    · intro j hj
      simp only [registerConnection, sendBufferedUpdates, he',
        Bool.false_eq_true, if_false]
      show lookupChan (flushLoop cid _ _) j = lookupChan s j
      exact flushLoop_other cid j hj _ _

/-- Witness for C8 (amended): the replacement at a concrete state. -/
theorem registerConnection_replaces_prior_witness :
    (registerConnection 0 1 ⟨some 0, [(0, ⟨1, []⟩), (1, ⟨1, []⟩)], [], none⟩).conn
        = some 1 ∧
    lookupChan (registerConnection 0 1
        ⟨some 0, [(0, ⟨1, []⟩), (1, ⟨1, []⟩)], [], none⟩) 0 =
      lookupChan (⟨some 0, [(0, ⟨1, []⟩), (1, ⟨1, []⟩)], [], none⟩ : WSState) 0 :=
  ⟨(registerConnection_replaces_prior 0 1 _).1,
   (registerConnection_replaces_prior 0 1 _).2 0 (by decide)⟩

/-! ### C10 — a non-open channel loses the flushed entries -/

/-- C10.  During the attach-time flush each entry is sent only if the
channel is OPEN at that moment, yet a non-empty log is deleted
unconditionally afterwards: for a channel that is not open, the whole
buffered log is deleted while no channel receives anything. -/
theorem registerConnection_drops_buffer_when_closed (s : WSState) (cid : ℕ)
    (now : ℕ) (hclosed : chanOpen s cid = false) (hne : liveBuf s now ≠ []) :
    (registerConnection now cid s).buf = [] ∧
    (registerConnection now cid s).bufExpireAt = none ∧
    (registerConnection now cid s).chans = s.chans := by
  have hne' : (liveBuf { s with conn := some cid } now).isEmpty = false := by
    simpa [List.isEmpty_iff] using hne
  have hclosed' : chanOpen { s with conn := some cid } cid = false := hclosed
  have hfl := flushLoop_of_closed cid (liveBuf { s with conn := some cid } now)
    { s with conn := some cid } hclosed'
  simp only [registerConnection, sendBufferedUpdates, hne',
    Bool.false_eq_true, if_false, hfl]
  exact ⟨rfl, rfl, rfl⟩

/-- Witness for C10: channel 0 already CLOSED (readyState 3), one
buffered update — it is deleted undelivered. -/
theorem registerConnection_drops_buffer_when_closed_witness :
    (registerConnection 7 0 ⟨none, [(0, ⟨3, []⟩)],
        [⟨"o", .PENDING, "m", none, none, none, none, none, none⟩], some 100⟩).buf = [] ∧
    (registerConnection 7 0 ⟨none, [(0, ⟨3, []⟩)],
        [⟨"o", .PENDING, "m", none, none, none, none, none, none⟩], some 100⟩).bufExpireAt = none ∧
    (registerConnection 7 0 ⟨none, [(0, ⟨3, []⟩)],
        [⟨"o", .PENDING, "m", none, none, none, none, none, none⟩], some 100⟩).chans =
      [(0, ⟨3, []⟩)] :=
  registerConnection_drops_buffer_when_closed _ 0 7 (by decide) (by decide)

/-! ### C6 — buffered-log bound and expiration (no subscriber ever) -/

/-- A sequence of `sendStatusUpdate` calls, each tagged with the time it
runs at (no failures injected). -/
def publishSeq (events : List (ℕ × OrderStatusUpdate)) (s : WSState) : WSState :=
  events.foldl (fun acc e =>
    match sendStatusUpdate e.1 e.2 false false acc with
    | .ok s' => s'
    | .error _ => acc) s

theorem sendStatusUpdate_no_conn (now : ℕ) (u : OrderStatusUpdate)
    (s : WSState) (h : s.conn = none) :
    sendStatusUpdate now u false false s = .ok (bufferUpdate now u false s) := by
  simp [sendStatusUpdate, h]

theorem ltrimLast_length (l : List OrderStatusUpdate) :
    (ltrimLast l).length ≤ MAX_BUFFERED_UPDATES := by
  simp only [ltrimLast, List.length_drop]
  omega

theorem suffix_append_right {α : Type} {l₁ l₂ : List α} (l₃ : List α)
    (h : l₁ <:+ l₂) : l₁ ++ l₃ <:+ l₂ ++ l₃ := by
  obtain ⟨p, hp⟩ := h
  exact ⟨p, by rw [← List.append_assoc, hp]⟩

theorem liveBuf_suffix (s : WSState) (now : ℕ) : liveBuf s now <:+ s.buf := by
  unfold liveBuf
  cases s.bufExpireAt with
  | none => exact List.suffix_refl _
  | some e =>
    by_cases h : now < e
    · simp [h]
    · simp [h, List.nil_suffix]

theorem publishSeq_inv :
    ∀ (events : List (ℕ × OrderStatusUpdate)) (s : WSState)
      (acc : List OrderStatusUpdate),
      s.conn = none → s.buf.length ≤ MAX_BUFFERED_UPDATES → s.buf <:+ acc →
      (publishSeq events s).conn = none ∧
      (publishSeq events s).buf.length ≤ MAX_BUFFERED_UPDATES ∧
      (publishSeq events s).buf <:+ acc ++ events.map (·.2) := by
  intro events
  induction events with
  | nil =>
    intro s acc h1 h2 h3
    exact ⟨h1, h2, by simpa using h3⟩
  | cons e es ih =>
    intro s acc h1 h2 h3
    have hstep : publishSeq (e :: es) s =
        publishSeq es (bufferUpdate e.1 e.2 false s) := by
      simp [publishSeq, sendStatusUpdate_no_conn e.1 e.2 s h1]
    have hconn : (bufferUpdate e.1 e.2 false s).conn = none := h1
    have hlen : (bufferUpdate e.1 e.2 false s).buf.length ≤ MAX_BUFFERED_UPDATES :=
      ltrimLast_length _
    have hsuf : (bufferUpdate e.1 e.2 false s).buf <:+ acc ++ [e.2] := by
      have h4 : liveBuf s e.1 <:+ acc := (liveBuf_suffix s e.1).trans h3
      have h5 : liveBuf s e.1 ++ [e.2] <:+ acc ++ [e.2] :=
        suffix_append_right [e.2] h4
      exact (List.drop_suffix _ _).trans h5
    have hrec := ih (bufferUpdate e.1 e.2 false s) (acc ++ [e.2]) hconn hlen hsuf
    rw [hstep]
    refine ⟨hrec.1, hrec.2.1, ?_⟩
    simpa [List.append_assoc] using hrec.2.2

/-- C6.  With no subscriber ever attaching, every publish lands in the
buffered log; after any such sequence the log never holds more than
`MAX_BUFFERED_UPDATES = 50` entries, the retained entries are always a
suffix of the published sequence (so the dropped ones are always the
oldest), and after the last publish at time `t` the log is unreadable
from time `t + UPDATE_BUFFER_TTL` (300 s after its last refresh). -/
theorem buffered_log_bounded_and_expiring
    (events : List (ℕ × OrderStatusUpdate)) (chans : List (ℕ × ChanState)) :
    (publishSeq events ⟨none, chans, [], none⟩).buf.length ≤ MAX_BUFFERED_UPDATES ∧
    (publishSeq events ⟨none, chans, [], none⟩).buf <:+ events.map (·.2) ∧
    ∀ es t u, events = es ++ [(t, u)] →
      (publishSeq events ⟨none, chans, [], none⟩).bufExpireAt =
        some (t + UPDATE_BUFFER_TTL) ∧
      ∀ t', t + UPDATE_BUFFER_TTL ≤ t' →
        liveBuf (publishSeq events ⟨none, chans, [], none⟩) t' = [] := by
  have hbase := publishSeq_inv events ⟨none, chans, [], none⟩ [] rfl
    (by simp [MAX_BUFFERED_UPDATES]) List.nil_suffix
  refine ⟨hbase.2.1, by simpa using hbase.2.2, ?_⟩
  intro es t u hev
  subst hev
  have hmid := publishSeq_inv es ⟨none, chans, [], none⟩ [] rfl
    (by simp [MAX_BUFFERED_UPDATES]) List.nil_suffix
  have happ : ∀ s : WSState, publishSeq (es ++ [(t, u)]) s =
      (match sendStatusUpdate t u false false (publishSeq es s) with
       | .ok s' => s'
       | .error _ => publishSeq es s) := by
    intro s
    simp [publishSeq, List.foldl_append]
  have hlast : publishSeq (es ++ [(t, u)]) ⟨none, chans, [], none⟩ =
      bufferUpdate t u false (publishSeq es ⟨none, chans, [], none⟩) := by
    rw [happ, sendStatusUpdate_no_conn t u _ hmid.1]
  rw [hlast]
  refine ⟨rfl, ?_⟩
  intro t' ht'
  have hnot : ¬ t' < t + UPDATE_BUFFER_TTL := by omega
  have hb : bufferUpdate t u false (publishSeq es ⟨none, chans, [], none⟩) =
      { publishSeq es ⟨none, chans, [], none⟩ with
        buf := ltrimLast (liveBuf (publishSeq es ⟨none, chans, [], none⟩) t ++ [u])
        bufExpireAt := some (t + UPDATE_BUFFER_TTL) } := rfl
  rw [hb]
  simp [liveBuf, hnot]

/-- Witness for C6: a single publish at time 0 into an empty store. -/
theorem buffered_log_bounded_and_expiring_witness :
    (publishSeq [(0, ⟨"o", .PENDING, "m", none, none, none, none, none, none⟩)]
        ⟨none, [], [], none⟩).bufExpireAt = some (0 + UPDATE_BUFFER_TTL) ∧
    ∀ t', 0 + UPDATE_BUFFER_TTL ≤ t' →
      liveBuf (publishSeq [(0, ⟨"o", .PENDING, "m", none, none, none, none, none, none⟩)]
        ⟨none, [], [], none⟩) t' = [] :=
  (buffered_log_bounded_and_expiring
      [(0, ⟨"o", .PENDING, "m", none, none, none, none, none, none⟩)] []).2.2
    [] 0 ⟨"o", .PENDING, "m", none, none, none, none, none, none⟩ rfl

/-! ### C1 — the attach/publish race

`registerConnection` and `sendStatusUpdate` share no per-order ordering
guard.  On the single-threaded JS event loop the following interleaving
is possible for one order:

1. the pipeline publishes PENDING before the client attaches → buffered;
2. the client attaches: `registerConnection` runs `connections.set`
   synchronously, then suspends awaiting `LRANGE` inside
   `sendBufferedUpdates`;
3. while it is suspended, the pipeline publishes ROUTING:
   `sendStatusUpdate` finds the registration with an OPEN socket and
   delivers it live immediately;
4. the flush resumes with its stale snapshot `[PENDING]`, sends it, and
   deletes the key;
5. the terminal update is later delivered live.

The subscriber stays attached throughout and receives
`[ROUTING, PENDING, CONFIRMED]` while the published sequence is
`[PENDING, ROUTING, CONFIRMED]` — delivery is reordered, violating the
no-loss/no-reorder property.  (With several server instances sharing the
Redis buffer the same missing guard also loses updates outright: an
`RPUSH` from another instance can land between the `LRANGE` and the
`DEL`.) -/

def okOr (e : Except String WSState) (dflt : WSState) : WSState :=
  match e with
  | .ok s => s
  | .error _ => dflt

def racePending : OrderStatusUpdate :=
  { orderId := "order-1", status := .PENDING, message := "Order received and queued" }

def raceRouting : OrderStatusUpdate :=
  { orderId := "order-1", status := .ROUTING, message := "Comparing DEX prices" }

def raceConfirmed : OrderStatusUpdate :=
  { orderId := "order-1", status := .CONFIRMED, message := "Transaction confirmed successfully" }

/-- The interleaved execution described above, step by step, using the
embedded primitives of `WebSocketManager` (`connections.set` /
`LRANGE` snapshot / live send / flush loop / `DEL`). -/
def raceFinal : WSState :=
  -- publish(PENDING) before the client attaches: buffered
  let s0 := okOr (sendStatusUpdate 0 racePending false false
    ⟨none, [(0, ⟨1, []⟩)], [], none⟩) ⟨none, [(0, ⟨1, []⟩)], [], none⟩
  -- registerConnection: connections.set(orderId, connection) is synchronous
  let s1 : WSState := { s0 with conn := some 0 }
  -- sendBufferedUpdates: LRANGE returns the snapshot, then suspends
  let snapshot := liveBuf s1 0
  -- concurrent publish(ROUTING): registration visible, socket OPEN → live
  let s2 := okOr (sendStatusUpdate 0 raceRouting false false s1) s1
  -- the flush resumes: forward the stale snapshot, then DEL the key
  let s3 := if snapshot.isEmpty then s2 else delBuf (flushLoop 0 snapshot s2)
  -- the terminal update is delivered live
  okOr (sendStatusUpdate 0 raceConfirmed false false s3) s3

def racePublished : List OrderStatusUpdate :=
  [racePending, raceRouting, raceConfirmed]

/-- C1 (violated): at the interleaving `raceFinal`, a subscriber that
attaches during processing and stays attached through the terminal update
receives `[ROUTING, PENDING, CONFIRMED]` — not the published sequence
`[PENDING, ROUTING, CONFIRMED]`.  Attach and publish are not linearized. -/
theorem attach_publish_race_reorders :
    chanSent raceFinal 0 = [raceRouting, racePending, raceConfirmed] ∧
    chanSent raceFinal 0 ≠ racePublished ∧
    raceFinal.buf = [] := by
  decide

/-! ## `OrderProcessor.processOrder` (src/src/services/OrderProcessor.ts)

One run = one attempt of one order.  The fallible awaited operations of
the `try` block are enumerated by `FailPoint`; a run is modelled with at
most one fault (`fp : Option FailPoint`), the `catch` handler's own save
then succeeding.  Randomness (`Math.random()` draws) and the generated tx
hash are explicit parameters.  The dispatcher state `WSState` is threaded
through every `sendStatusUpdate` (which the source fires without
awaiting, so its outcome can never flow back into the pipeline). -/

/-- The persisted `Order` entity (`entities/Order`, created by the route
with `status: PENDING` and no optional fields). -/
structure OrderRec where
  id : String
  tokenIn : String
  tokenOut : String
  amountIn : ℚ
  slippage : ℚ
  status : OrderStatus
  selectedDex : Option DEXName := none
  txHash : Option String := none
  executionPrice : Option ℚ := none
  errorMessage : Option String := none
  retryCount : ℕ := 0
deriving DecidableEq, Repr

/-- The awaited operations of `processOrder` that can reject, in program
order. -/
inductive FailPoint where
  | saveRetryCount | savePending | saveRouting | getQuotes | saveQuote
  | saveSelectedDex | saveBuilding | saveSubmitted | swapExecution
  | saveConfirmed
deriving DecidableEq, Repr

/-- Model of `error.message` for the fault that aborted the run (content is
environment-dependent; only its presence matters to the claims). -/
def failMsg : FailPoint → String
  | .saveRetryCount => "save retry count failed"
  | .savePending => "save PENDING failed"
  | .saveRouting => "save ROUTING failed"
  | .getQuotes => "quote fetch failed"
  | .saveQuote => "quote save failed"
  | .saveSelectedDex => "save selected dex failed"
  | .saveBuilding => "save BUILDING failed"
  | .saveSubmitted => "save SUBMITTED failed"
  | .swapExecution => "swap execution failed"
  | .saveConfirmed => "save CONFIRMED failed"

/-- Result of one `processOrder` run: the final in-memory order, every
snapshot successfully persisted by `orderRepository.save` (in order), the
persisted quote rows, the updates handed to the dispatcher (in order),
the dispatcher state, and whether the run re-threw to BullMQ. -/
structure RunResult where
  finalOrder : OrderRec
  trace : List OrderRec
  savedQuotes : List DexQuoteResult
  published : List OrderStatusUpdate
  ws : WSState
  threw : Bool
deriving DecidableEq, Repr

/-- Model of `OrderProcessor.sendStatusUpdate` → `wsManager.sendStatusUpdate`:
fired without `await`; a rejection is unobservable by the pipeline.  One
`(sendFails, redisFails)` pair is consumed per publish. -/
def dispatch (ws : WSState) (flags : List (Bool × Bool))
    (u : OrderStatusUpdate) : WSState × List (Bool × Bool) :=
  let f := flags.headD (false, false)
  (okOr (sendStatusUpdate 0 u f.1 f.2 ws) ws, flags.tail)

/-- The `catch` block of `processOrder`: mark the order `FAILED` with the
error message, persist it, publish the failure update (with `error` and
`retryCount`), schedule the connection teardown, and re-throw. -/
def catchFail (o : OrderRec) (p : FailPoint) (trace : List OrderRec)
    (savedQuotes : List DexQuoteResult) (published : List OrderStatusUpdate)
    (ws : WSState) (flags : List (Bool × Bool)) : RunResult :=
  let o' := { o with status := .FAILED, errorMessage := some (failMsg p) }
  let u : OrderStatusUpdate :=
    { orderId := o'.id, status := .FAILED, message := "Order execution failed"
      error := o'.errorMessage, retryCount := some o'.retryCount }
  let (ws', _) := dispatch ws flags u
  { finalOrder := o', trace := trace ++ [o'], savedQuotes := savedQuotes
    published := published ++ [u], ws := closeConnection ws', threw := true }

/-- Model of `OrderProcessor.processOrder`, one attempt. -/
def processOrder (o0 : OrderRec) (attemptsMade : ℕ) (fp : Option FailPoint)
    (randR randM randX : ℚ) (txh : String) (ws0 : WSState)
    (flags : List (Bool × Bool)) : RunResult :=
  -- order.retryCount = attemptsMade; await orderRepository.save(order)
  let o1 := { o0 with retryCount := attemptsMade }
  if fp = some .saveRetryCount then catchFail o1 .saveRetryCount [] [] [] ws0 flags else
  let tr1 := [o1]
  -- updateOrderStatus(order, PENDING, "Order received and queued")
  let o2 := { o1 with status := OrderStatus.PENDING }
  if fp = some .savePending then catchFail o2 .savePending tr1 [] [] ws0 flags else
  let tr2 := tr1 ++ [o2]
  let uP : OrderStatusUpdate :=
    { orderId := o2.id, status := .PENDING, message := "Order received and queued" }
  let (ws1, fl1) := dispatch ws0 flags uP
  let pub1 := [uP]
  -- updateOrderStatus(order, ROUTING, "Comparing DEX prices")
  let o3 := { o2 with status := OrderStatus.ROUTING }
  if fp = some .saveRouting then catchFail o3 .saveRouting tr2 [] pub1 ws1 fl1 else
  let tr3 := tr2 ++ [o3]
  let uR : OrderStatusUpdate :=
    { orderId := o3.id, status := .ROUTING, message := "Comparing DEX prices" }
  let (ws2, fl2) := dispatch ws1 fl1 uR
  let pub2 := pub1 ++ [uR]
  -- const quotes = await dexRouter.getAllQuotes(tokenIn, tokenOut, amountIn)
  if fp = some .getQuotes then catchFail o3 .getQuotes tr3 [] pub2 ws2 fl2 else
  let quotes := getAllQuotes o3.tokenIn o3.tokenOut o3.amountIn randR randM
  -- for (const quoteData of quotes) { await quoteRepository.save(quote) }
  if fp = some .saveQuote then catchFail o3 .saveQuote tr3 [] pub2 ws2 fl2 else
  -- const bestQuote = dexRouter.selectBestDex(quotes)
  -- (quotes is the two-element list from getAllQuotes; an empty array
  --  would make `reduce` throw, caught like any other pipeline error)
  match selectBestDex quotes with
  | none => catchFail o3 .getQuotes tr3 quotes pub2 ws2 fl2
  | some bestQuote =>
  -- order.selectedDex = bestQuote.dexName; await save
  let o4 := { o3 with selectedDex := some bestQuote.dexName }
  if fp = some .saveSelectedDex then catchFail o4 .saveSelectedDex tr3 quotes pub2 ws2 fl2 else
  let tr4 := tr3 ++ [o4]
  -- routing update carrying the quote list and the selection
  let uR2 : OrderStatusUpdate :=
    { orderId := o4.id, status := .ROUTING, message := "DEX routing completed"
      quotes := some quotes, selectedDex := some bestQuote.dexName }
  let (ws3, fl3) := dispatch ws2 fl2 uR2
  let pub3 := pub2 ++ [uR2]
  -- updateOrderStatus(order, BUILDING, "Creating transaction"); sleep(500)
  let o5 := { o4 with status := OrderStatus.BUILDING }
  if fp = some .saveBuilding then catchFail o5 .saveBuilding tr4 quotes pub3 ws3 fl3 else
  let tr5 := tr4 ++ [o5]
  let uB : OrderStatusUpdate :=
    { orderId := o5.id, status := .BUILDING, message := "Creating transaction" }
  let (ws4, fl4) := dispatch ws3 fl3 uB
  let pub4 := pub3 ++ [uB]
  -- updateOrderStatus(order, SUBMITTED, "Transaction sent to network")
  let o6 := { o5 with status := OrderStatus.SUBMITTED }
  if fp = some .saveSubmitted then catchFail o6 .saveSubmitted tr5 quotes pub4 ws4 fl4 else
  let tr6 := tr5 ++ [o6]
  let uS : OrderStatusUpdate :=
    { orderId := o6.id, status := .SUBMITTED, message := "Transaction sent to network" }
  let (ws5, fl5) := dispatch ws4 fl4 uS
  let pub5 := pub4 ++ [uS]
  -- const swapResult = await dexRouter.executeSwap(...)
  if fp = some .swapExecution then catchFail o6 .swapExecution tr6 quotes pub5 ws5 fl5 else
  let swapResult := executeSwap bestQuote.dexName o6.tokenIn o6.tokenOut
    o6.amountIn o6.slippage bestQuote randX txh
  -- order.status = CONFIRMED; order.txHash = ...; order.executionPrice = ...
  let o7 := { o6 with status := OrderStatus.CONFIRMED
                      txHash := some swapResult.txHash
                      executionPrice := some swapResult.executedPrice }
  if fp = some .saveConfirmed then catchFail o7 .saveConfirmed tr6 quotes pub5 ws5 fl5 else
  let tr7 := tr6 ++ [o7]
  let uC : OrderStatusUpdate :=
    { orderId := o7.id, status := .CONFIRMED
      message := "Transaction confirmed successfully"
      txHash := some swapResult.txHash
      executionPrice := some swapResult.executedPrice
      selectedDex := some bestQuote.dexName }
  let (ws6, _) := dispatch ws5 fl5 uC
  let pub6 := pub5 ++ [uC]
  -- setTimeout(() => wsManager.closeConnection(order.id), 2000)
  { finalOrder := o7, trace := tr7, savedQuotes := quotes
    published := pub6, ws := closeConnection ws6, threw := false }

/-- The BullMQ retry loop (`OrderQueue`: `attempts: 3`, 0-based
`job.attemptsMade` passed to the pipeline): re-run on a thrown attempt,
stop on success or when the attempt budget `fps` is exhausted.  Returns
the concatenation of every persisted snapshot, across attempts. -/
def runAttempts (randR randM randX : ℚ) (txh : String) (ws : WSState)
    (flags : List (Bool × Bool)) :
    OrderRec → List (Option FailPoint) → ℕ → List OrderRec
  | _, [], _ => []
  | o, fp :: rest, n =>
    let r := processOrder o n fp randR randM randX txh ws flags
    if r.threw then r.trace ++ runAttempts randR randM randX txh ws flags r.finalOrder rest (n + 1)
    else r.trace

/-! ### C2 — status sequence of one pipeline run -/

/-- The statuses of the updates one run hands to the dispatcher, in
publication order. -/
def publishedStatuses (o0 : OrderRec) (n : ℕ) (fp : Option FailPoint)
    (randR randM randX : ℚ) (txh : String) (ws0 : WSState)
    (flags : List (Bool × Bool)) : List OrderStatus :=
  (processOrder o0 n fp randR randM randX txh ws0 flags).published.map (·.status)

/-- C2.  In every single run: on success the published statuses are
exactly `PENDING, ROUTING, ROUTING, BUILDING, SUBMITTED, CONFIRMED`
(the stage chain in order, ROUTING carrying a second, quote-bearing
update, no stage skipped); on a fault the run publishes a prefix of that
chain followed by one `FAILED` (so `FAILED` is entered from a
non-terminal stage); in all runs no update at all follows a terminal
status — the only post-terminal effect is the connection teardown. -/
theorem processOrder_status_sequence (o0 : OrderRec) (n : ℕ)
    (fp : Option FailPoint) (randR randM randX : ℚ) (txh : String)
    (ws0 : WSState) (flags : List (Bool × Bool)) :
    (fp = none →
      publishedStatuses o0 n fp randR randM randX txh ws0 flags =
        [.PENDING, .ROUTING, .ROUTING, .BUILDING, .SUBMITTED, .CONFIRMED]) ∧
    (∀ p, fp = some p → ∃ k ≤ 5,
      publishedStatuses o0 n fp randR randM randX txh ws0 flags =
        [OrderStatus.PENDING, .ROUTING, .ROUTING, .BUILDING, .SUBMITTED].take k
          ++ [.FAILED]) ∧
    OrderStatus.CONFIRMED ∉
      (publishedStatuses o0 n fp randR randM randX txh ws0 flags).dropLast ∧
    OrderStatus.FAILED ∉
      (publishedStatuses o0 n fp randR randM randX txh ws0 flags).dropLast := by
  rcases fp with _ | p
  · have heq : publishedStatuses o0 n none randR randM randX txh ws0 flags =
        [.PENDING, .ROUTING, .ROUTING, .BUILDING, .SUBMITTED, .CONFIRMED] := rfl
    refine ⟨fun _ => heq, fun p hp => absurd hp (by simp), ?_, ?_⟩ <;>
      (rw [heq]; decide)
  · cases p with
    | saveRetryCount =>
      have heq : publishedStatuses o0 n (some .saveRetryCount) randR randM randX txh ws0 flags =
          [OrderStatus.PENDING, .ROUTING, .ROUTING, .BUILDING, .SUBMITTED].take 0
            ++ [.FAILED] := rfl
      refine ⟨fun hp => absurd hp (by simp), fun q _ => ⟨0, by omega, heq⟩, ?_, ?_⟩ <;>
        (rw [heq]; decide)
    | savePending =>
      have heq : publishedStatuses o0 n (some .savePending) randR randM randX txh ws0 flags =
          [OrderStatus.PENDING, .ROUTING, .ROUTING, .BUILDING, .SUBMITTED].take 0
            ++ [.FAILED] := rfl
      refine ⟨fun hp => absurd hp (by simp), fun q _ => ⟨0, by omega, heq⟩, ?_, ?_⟩ <;>
        (rw [heq]; decide)
    | saveRouting =>
      have heq : publishedStatuses o0 n (some .saveRouting) randR randM randX txh ws0 flags =
          [OrderStatus.PENDING, .ROUTING, .ROUTING, .BUILDING, .SUBMITTED].take 1
            ++ [.FAILED] := rfl
      refine ⟨fun hp => absurd hp (by simp), fun q _ => ⟨1, by omega, heq⟩, ?_, ?_⟩ <;>
        (rw [heq]; decide)
    | getQuotes =>
      have heq : publishedStatuses o0 n (some .getQuotes) randR randM randX txh ws0 flags =
          [OrderStatus.PENDING, .ROUTING, .ROUTING, .BUILDING, .SUBMITTED].take 2
            ++ [.FAILED] := rfl
      refine ⟨fun hp => absurd hp (by simp), fun q _ => ⟨2, by omega, heq⟩, ?_, ?_⟩ <;>
        (rw [heq]; decide)
    | saveQuote =>
      have heq : publishedStatuses o0 n (some .saveQuote) randR randM randX txh ws0 flags =
          [OrderStatus.PENDING, .ROUTING, .ROUTING, .BUILDING, .SUBMITTED].take 2
            ++ [.FAILED] := rfl
      refine ⟨fun hp => absurd hp (by simp), fun q _ => ⟨2, by omega, heq⟩, ?_, ?_⟩ <;>
        (rw [heq]; decide)
    | saveSelectedDex =>
      have heq : publishedStatuses o0 n (some .saveSelectedDex) randR randM randX txh ws0 flags =
          [OrderStatus.PENDING, .ROUTING, .ROUTING, .BUILDING, .SUBMITTED].take 2
            ++ [.FAILED] := rfl
      refine ⟨fun hp => absurd hp (by simp), fun q _ => ⟨2, by omega, heq⟩, ?_, ?_⟩ <;>
        (rw [heq]; decide)
    | saveBuilding =>
      have heq : publishedStatuses o0 n (some .saveBuilding) randR randM randX txh ws0 flags =
          [OrderStatus.PENDING, .ROUTING, .ROUTING, .BUILDING, .SUBMITTED].take 3
            ++ [.FAILED] := rfl
      refine ⟨fun hp => absurd hp (by simp), fun q _ => ⟨3, by omega, heq⟩, ?_, ?_⟩ <;>
        (rw [heq]; decide)
    | saveSubmitted =>
      have heq : publishedStatuses o0 n (some .saveSubmitted) randR randM randX txh ws0 flags =
          [OrderStatus.PENDING, .ROUTING, .ROUTING, .BUILDING, .SUBMITTED].take 4
            ++ [.FAILED] := rfl
      refine ⟨fun hp => absurd hp (by simp), fun q _ => ⟨4, by omega, heq⟩, ?_, ?_⟩ <;>
        (rw [heq]; decide)
    | swapExecution =>
      have heq : publishedStatuses o0 n (some .swapExecution) randR randM randX txh ws0 flags =
          [OrderStatus.PENDING, .ROUTING, .ROUTING, .BUILDING, .SUBMITTED].take 5
            ++ [.FAILED] := rfl
      refine ⟨fun hp => absurd hp (by simp), fun q _ => ⟨5, by omega, heq⟩, ?_, ?_⟩ <;>
        (rw [heq]; decide)
    | saveConfirmed =>
      have heq : publishedStatuses o0 n (some .saveConfirmed) randR randM randX txh ws0 flags =
          [OrderStatus.PENDING, .ROUTING, .ROUTING, .BUILDING, .SUBMITTED].take 5
            ++ [.FAILED] := rfl
      refine ⟨fun hp => absurd hp (by simp), fun q _ => ⟨5, by omega, heq⟩, ?_, ?_⟩ <;>
        (rw [heq]; decide)

/-- The order as created by `POST /api/orders/execute`
(status `PENDING`, no optional fields set). -/
def freshOrder : OrderRec :=
  { id := "order-1", tokenIn := "SOL", tokenOut := "USDC"
    amountIn := 1, slippage := 0, status := .PENDING }

/-- Witness for C2: a run that faults at the swap execution. -/
theorem processOrder_status_sequence_witness :
    ∃ k ≤ 5,
      publishedStatuses freshOrder 0 (some .swapExecution) 0 0 0 "tx"
          ⟨none, [], [], none⟩ [] =
        [OrderStatus.PENDING, .ROUTING, .ROUTING, .BUILDING, .SUBMITTED].take k
          ++ [.FAILED] :=
  (processOrder_status_sequence freshOrder 0 (some .swapExecution) 0 0 0 "tx"
    ⟨none, [], [], none⟩ []).2.1 .swapExecution rfl

/-! ### C5 — the optional-field/status invariant -/

/-- The persisted snapshots of a two-attempt history: the first attempt
fails at the quote fetch, the BullMQ retry then runs to success. -/
def retryTrace : List OrderRec :=
  runAttempts 0 0 0 "tx" ⟨none, [], [], none⟩ [] freshOrder
    [some .getQuotes, none] 0

/-- Counterexample to C5 as stated: across retry attempts the claimed
biconditionals fail.  After attempt 0 fails (persisting `FAILED` with an
`errorMessage`), attempt 1 re-enters `PENDING` without clearing
`errorMessage`, so a persisted snapshot has `errorMessage` set while
`status ≠ FAILED` (and the successful retry later persists `CONFIRMED`
snapshots still carrying the stale `errorMessage`). -/
theorem order_invariant_fails_across_retries :
    ¬ (∀ o ∈ retryTrace,
        ((o.errorMessage ≠ none) ↔ o.status = .FAILED) ∧
        ((o.txHash ≠ none) ↔ o.status = .CONFIRMED) ∧
        ((o.executionPrice ≠ none) ↔ o.status = .CONFIRMED)) := by
  decide

/-- The forward half of the data-model invariant: a `FAILED` order always
carries an error message, a `CONFIRMED` order always carries a tx hash
and an execution price. -/
def OrderInv (o : OrderRec) : Prop :=
  (o.status = .FAILED → o.errorMessage ≠ none) ∧
  (o.status = .CONFIRMED → o.txHash ≠ none ∧ o.executionPrice ≠ none)

theorem processOrder_preserves_inv (o0 : OrderRec) (n : ℕ)
    (fp : Option FailPoint) (randR randM randX : ℚ) (txh : String)
    (ws0 : WSState) (flags : List (Bool × Bool)) (h : OrderInv o0) :
    (∀ o' ∈ (processOrder o0 n fp randR randM randX txh ws0 flags).trace,
      OrderInv o') ∧
    OrderInv (processOrder o0 n fp randR randM randX txh ws0 flags).finalOrder := by
  rcases fp with _ | p
  · constructor <;>
      first
        | (simp [processOrder, catchFail, dispatch, getAllQuotes, selectBestDex,
            OrderInv, List.forall_mem_cons]
           exact ⟨h.1, h.2⟩)
        | simp [processOrder, catchFail, dispatch, getAllQuotes, selectBestDex,
            OrderInv, List.forall_mem_cons]
  · cases p <;> constructor <;>
      first
        | (simp [processOrder, catchFail, dispatch, getAllQuotes, selectBestDex,
            OrderInv, List.forall_mem_cons]
           exact ⟨h.1, h.2⟩)
        | simp [processOrder, catchFail, dispatch, getAllQuotes, selectBestDex,
            OrderInv, List.forall_mem_cons]

/-- C5 amended.  At every persisted point across retry attempts the
forward implications hold (`FAILED → errorMessage` set, `CONFIRMED →
txHash` and `executionPrice` set), for any order starting with the
invariant (as created).  The reverse directions are the part the
counterexample refutes: `errorMessage` (and, when a `CONFIRMED` save
fails, `txHash`/`executionPrice`) survive into later non-matching
statuses because no field is ever cleared. -/
theorem runAttempts_forward_invariant (randR randM randX : ℚ) (txh : String)
    (ws : WSState) (flags : List (Bool × Bool)) :
    ∀ (fps : List (Option FailPoint)) (o : OrderRec) (n : ℕ), OrderInv o →
      ∀ o' ∈ runAttempts randR randM randX txh ws flags o fps n, OrderInv o' := by
  intro fps
  induction fps with
  | nil =>
    intro o n _ o' ho'
    simp [runAttempts] at ho'
  | cons fp rest ih =>
    intro o n h o' ho'
    have hp := processOrder_preserves_inv o n fp randR randM randX txh ws flags h
    simp only [runAttempts] at ho'
    by_cases ht : (processOrder o n fp randR randM randX txh ws flags).threw = true
    · rw [if_pos ht] at ho'
      rcases List.mem_append.mp ho' with hl | hr
      · exact hp.1 o' hl
      · exact ih _ (n + 1) hp.2 o' hr
    · rw [if_neg ht] at ho'
      exact hp.1 o' ho'

/-- Witness for C5 (amended): the invariant holds on a snapshot of a
successful single-attempt history of `freshOrder`. -/
theorem runAttempts_forward_invariant_witness :
    OrderInv freshOrder :=
  runAttempts_forward_invariant 0 0 0 "tx" ⟨none, [], [], none⟩ []
    [none] freshOrder 0
    (by refine ⟨?_, ?_⟩ <;> intro hx <;> simp [freshOrder] at hx)
    freshOrder (by decide)

/-! ### C9 — delivery failures are absorbed and inert -/

/-- C9.  (a) `sendStatusUpdate` never rejects: every internal failure
(send throw, buffer-store error) is caught, for all inputs.
(b) With an open registered channel whose `send` throws, the update falls
through to the buffer (appended newest-last) rather than being lost.
(c) The pipeline's persisted trace, final order and success/failure are
identical for any two dispatcher states and any two injected
delivery-failure patterns: delivery outcome never changes order state. -/
theorem delivery_failures_absorbed :
    (∀ (now : ℕ) (u : OrderStatusUpdate) (sendFails redisFails : Bool)
      (s : WSState), ∃ s', sendStatusUpdate now u sendFails redisFails s = .ok s') ∧
    (∀ (now : ℕ) (u : OrderStatusUpdate) (s : WSState) (cid : ℕ),
      s.conn = some cid → chanOpen s cid = true →
      sendStatusUpdate now u true false s = .ok (bufferUpdate now u false s) ∧
      (bufferUpdate now u false s).buf = ltrimLast (liveBuf s now ++ [u]) ∧
      (bufferUpdate now u false s).chans = s.chans) ∧
    (∀ (o0 : OrderRec) (n : ℕ) (fp : Option FailPoint) (randR randM randX : ℚ)
      (txh : String) (ws ws' : WSState) (flags flags' : List (Bool × Bool)),
      (processOrder o0 n fp randR randM randX txh ws flags).trace =
        (processOrder o0 n fp randR randM randX txh ws' flags').trace ∧
      (processOrder o0 n fp randR randM randX txh ws flags).finalOrder =
        (processOrder o0 n fp randR randM randX txh ws' flags').finalOrder ∧
      (processOrder o0 n fp randR randM randX txh ws flags).threw =
        (processOrder o0 n fp randR randM randX txh ws' flags').threw) := by
  refine ⟨?_, ?_, ?_⟩
  · intro now u sendFails redisFails s
    cases hc : s.conn with
    | none =>
      exact ⟨bufferUpdate now u redisFails s, by simp [sendStatusUpdate, hc]⟩
    | some cid =>
      by_cases h : chanOpen s cid = true
      · cases sendFails
        · exact ⟨sendToChan s cid u,
            by simp [sendStatusUpdate, hc, h, socketSendE]⟩
        · exact ⟨bufferUpdate now u redisFails s,
            by simp [sendStatusUpdate, hc, h, socketSendE]⟩
      · exact ⟨bufferUpdate now u redisFails s,
          by simp [sendStatusUpdate, hc, h]⟩
  · intro now u s cid h1 h2
    refine ⟨?_, rfl, rfl⟩
    simp [sendStatusUpdate, socketSendE, h1, h2]
  · intro o0 n fp randR randM randX txh ws ws' flags flags'
    rcases fp with _ | p
    · exact ⟨rfl, rfl, rfl⟩
    · cases p <;> exact ⟨rfl, rfl, rfl⟩

/-- Witness for C9: a failing send on an open channel at a concrete state
falls through to the buffer. -/
theorem delivery_failures_absorbed_witness :
    sendStatusUpdate 0 racePending true false ⟨some 0, [(0, ⟨1, []⟩)], [], none⟩ =
      .ok (bufferUpdate 0 racePending false ⟨some 0, [(0, ⟨1, []⟩)], [], none⟩) ∧
    (bufferUpdate 0 racePending false ⟨some 0, [(0, ⟨1, []⟩)], [], none⟩).buf =
      ltrimLast (liveBuf ⟨some 0, [(0, ⟨1, []⟩)], [], none⟩ 0 ++ [racePending]) ∧
    (bufferUpdate 0 racePending false ⟨some 0, [(0, ⟨1, []⟩)], [], none⟩).chans =
      [(0, ⟨1, []⟩)] :=
  delivery_failures_absorbed.2.1 0 racePending
    ⟨some 0, [(0, ⟨1, []⟩)], [], none⟩ 0 rfl rfl

end OrderExchange
